import Mathlib

/-!
Verification of zpool-create.py: a shallow embedding of its parsing,
classification, layout resolution and command-building code, with theorems
checking the natural-language specification against it.

Pure Python fragments become Lean functions; statements that can raise
(dict lookups, tuple unpacking, unbound variables, int()) become
Except-valued functions whose error strings name the Python exception.
-/

namespace ZC

/-! ## Python string primitives

Faithful models of the str methods the script uses: whitespace splitting
(str.split() and str.split(None, 1)), strip(), lstrip('='), splitlines(),
join, substring containment, and int(). -/

/-- Whitespace class of Python str.split and of the regex class backslash-s. -/
def pyIsSpace (c : Char) : Bool :=
  c == ' ' || c == '\t' || c == '\n' || c == '\r' || c == '\x0b' || c == '\x0c'

/-- Accumulating tokenizer behind str.split(): runs of non-whitespace. -/
def tokensAux : List Char → List Char → List (List Char)
  | [], acc => if acc.isEmpty then [] else [acc.reverse]
  | c :: cs, acc =>
    if pyIsSpace c then
      if acc.isEmpty then tokensAux cs [] else acc.reverse :: tokensAux cs []
    else tokensAux cs (c :: acc)

/-- Python line.split(): whitespace-separated tokens, empties discarded. -/
def pySplitWs (s : String) : List String :=
  (tokensAux s.data []).map String.mk

/-- Strip Python whitespace from both ends of a character list. -/
def pyStripChars (l : List Char) : List Char :=
  ((l.dropWhile pyIsSpace).reverse.dropWhile pyIsSpace).reverse

/-- Python s.strip(). -/
def pyStrip (s : String) : String := String.mk (pyStripChars s.data)

/-- Python s.lstrip        of the character '=': drop every leading '='. -/
def pyLstripEq (s : String) : String :=
  String.mk (s.data.dropWhile (fun c => c == '='))

/-- Python line.split(None, 1): leading whitespace dropped, first token,
whitespace run consumed, remainder kept verbatim (dropped if empty). -/
def pySplit1 (s : String) : List String :=
  let l := s.data.dropWhile pyIsSpace
  if l.isEmpty then []
  else
    let tok := l.takeWhile (fun c => !pyIsSpace c)
    let rest := (l.dropWhile (fun c => !pyIsSpace c)).dropWhile pyIsSpace
    if rest.isEmpty then [String.mk tok] else [String.mk tok, String.mk rest]

/-- Value of a digit string. -/
def digitsVal (l : List Char) : Nat :=
  l.foldl (fun acc c => 10 * acc + (c.toNat - Char.toNat '0')) 0

/-- Python int(s): surrounding whitespace allowed, optional sign, digits;
None models the ValueError int() raises otherwise. -/
def pyInt (s : String) : Option Int :=
  match pyStripChars s.data with
  | '-' :: ds =>
    if !ds.isEmpty && ds.all Char.isDigit then some (-(digitsVal ds : Int)) else none
  | '+' :: ds =>
    if !ds.isEmpty && ds.all Char.isDigit then some ((digitsVal ds : Int)) else none
  | ds =>
    if !ds.isEmpty && ds.all Char.isDigit then some ((digitsVal ds : Int)) else none

/-- Python sep.join(parts). -/
def pyJoin (sep : String) : List String → String
  | [] => ""
  | [x] => x
  | x :: xs => x ++ sep ++ pyJoin sep xs

/-- Does s start with the single character c (Python startswith for a
one-character argument, the only form the script uses)? -/
def pyStartsWith1 (s : String) (c : Char) : Bool :=
  match s.data with
  | [] => false
  | d :: _ => d == c

/-- Is pat a prefix of the character list? -/
def leadsWith : List Char → List Char → Bool
  | [], _ => true
  | _ :: _, [] => false
  | p :: ps, c :: cs => p == c && leadsWith ps cs

/-- Does pat occur as a contiguous substring? -/
def containsSubAux (pat : List Char) : List Char → Bool
  | [] => leadsWith pat []
  | c :: cs => leadsWith pat (c :: cs) || containsSubAux pat cs

/-- Python membership test: pat in s. -/
def strContains (s pat : String) : Bool := containsSubAux pat.data s.data

/-- Python s.splitlines() restricted to the line breaks that occur in
captured command output in this script (LF, CR, CRLF); no trailing empty
line is produced. -/
def splitlinesAux : List Char → List Char → List String
  | [], acc => if acc.isEmpty then [] else [String.mk acc.reverse]
  | '\r' :: '\n' :: cs, acc => String.mk acc.reverse :: splitlinesAux cs []
  | '\n' :: cs, acc => String.mk acc.reverse :: splitlinesAux cs []
  | '\r' :: cs, acc => String.mk acc.reverse :: splitlinesAux cs []
  | c :: cs, acc => splitlinesAux cs (c :: acc)

def pySplitlines (s : String) : List String := splitlinesAux s.data []

/-! ## Association-list maps

Python dicts, with the two update patterns the script uses:
dict[k] = v (overwrite or append) and nested-dict creation. -/

/-- Look a key up in an association list (Python dict indexing; None is the
KeyError case). -/
def lookupA {α β : Type} [BEq α] (k : α) (l : List (α × β)) : Option β :=
  (l.find? (fun p => p.1 == k)).map (fun p => p.2)

/-! ## Discovery parser (get_hddisco, lines 193-221)

hddisco maps device id to an attribute map.  A line starting with '='
opens a section (resetting any earlier one of the same id, as the Python
dict assignment does), a line starting with 'P' is skipped, anything else
must split into exactly two fields under split(None, 1); the value is
recorded with its internal whitespace preserved.  An attribute line seen
before any '=' line hits the unbound local variable current. -/

abbrev Hddisco := List (String × List (String × String))

/-- dict[k] = v on an attribute map. -/
def updAttr (k v : String) : List (String × String) → List (String × String)
  | [] => [(k, v)]
  | (k', v') :: rest => if k' == k then (k, v) :: rest else (k', v') :: updAttr k v rest

/-- hddisco[current] = empty dict. -/
def setDevice (dev : String) : Hddisco → Hddisco
  | [] => [(dev, [])]
  | (d', m) :: rest => if d' == dev then (dev, []) :: rest else (d', m) :: setDevice dev rest

/-- hddisco[current][k] = v. -/
def addAttr (dev k v : String) : Hddisco → Hddisco
  | [] => [(dev, [(k, v)])]
  | (d', m) :: rest =>
    if d' == dev then (dev, updAttr k v m) :: rest else (d', m) :: addAttr dev k v rest

/-- The line loop of get_hddisco; current is the Python local of that name,
none while it is still unbound. -/
def hddiscoLines : List String → Option String → Hddisco → Except String Hddisco
  | [], _, h => .ok h
  | line :: rest, current, h =>
    if pyStartsWith1 line '=' then
      let dev := pyStrip (pyLstripEq line)
      hddiscoLines rest (some dev) (setDevice dev h)
    else if pyStartsWith1 line 'P' then
      hddiscoLines rest current h
    else
      match pySplit1 line with
      | [k0, v0] =>
        match current with
        | some dev => hddiscoLines rest current (addAttr dev (pyStrip k0) (pyStrip v0) h)
        | none => .error "NameError: current is not defined"
      | _ => .error "ValueError: unpack"

/-- get_hddisco applied to the captured output of the hddisco command. -/
def get_hddisco (output : String) : Except String Hddisco :=
  hddiscoLines (pySplitlines output) none []

/-! ## Device classifier (is_log, is_cache, lines 224-259)

Both predicates index hddisco twice; a missing device or attribute is a
KeyError.  is_cache short-circuits: when is_ssd differs from "yes" the
product attribute is never read. -/

/-- is_log: the product attribute equals "ZeusRAM". -/
def is_log (d : String) (hddisco : Hddisco) : Except String Bool :=
  match lookupA d hddisco with
  | none => .error "KeyError: device"
  | some attrs =>
    match lookupA "product" attrs with
    | none => .error "KeyError: product"
    | some p => .ok (p == "ZeusRAM")

/-- is_cache: is_ssd equals "yes" and the device is not a log device. -/
def is_cache (d : String) (hddisco : Hddisco) : Except String Bool :=
  match lookupA d hddisco with
  | none => .error "KeyError: device"
  | some attrs =>
    match lookupA "is_ssd" attrs with
    | none => .error "KeyError: is_ssd"
    | some ssd =>
      if ssd == "yes" then
        match is_log d hddisco with
        | .ok b => .ok (!b)
        | .error e => .error e
      else .ok false

/-! ## Slot-map parser (get_slotmap, lines 167-190)

A line containing the literal "Unmapped disks" stops the loop.  A line is
a device line when re.search finds the pattern c digits t anything d
digits whitespace in it; .* never has to cross a line break because the
input is a single output line.  A device line is split on whitespace, the
final token is dropped, and the remaining three are unpacked as
(lun, jbod, slot); a different count is a ValueError, as is a slot that
int() rejects. -/

/-- Regex fragment d [0-9]+ backslash-s at the head of the list. -/
def matchDTail : List Char → Bool
  | 'd' :: rest =>
    (!(rest.takeWhile Char.isDigit).isEmpty) &&
      (match rest.dropWhile Char.isDigit with
       | c :: _ => pyIsSpace c
       | [] => false)
  | _ => false

/-- Does some suffix satisfy p (the scan of re.search, and the dot-star)? -/
def anySuffix (p : List Char → Bool) : List Char → Bool
  | [] => p []
  | c :: cs => p (c :: cs) || anySuffix p cs

/-- Regex fragment c [0-9]+ t followed by dot-star d [0-9]+ backslash-s. -/
def matchCtHead : List Char → Bool
  | 'c' :: rest =>
    (!(rest.takeWhile Char.isDigit).isEmpty) &&
      (match rest.dropWhile Char.isDigit with
       | 't' :: rest2 => anySuffix matchDTail rest2
       | _ => false)
  | _ => false

/-- re.search of the device pattern over a line. -/
def reSearchDevice (line : String) : Bool := anySuffix matchCtHead line.data

abbrev SlotMap := List (String × List (Int × String))

/-- slotmap[jbod][slot] = lun on the inner dict. -/
def updInner (s : Int) (lun : String) : List (Int × String) → List (Int × String)
  | [] => [(s, lun)]
  | (s', l') :: rest => if s' == s then (s, lun) :: rest else (s', l') :: updInner s lun rest

/-- Create the jbod entry when first seen, then set the slot. -/
def updSlot (j : String) (s : Int) (lun : String) : SlotMap → SlotMap
  | [] => [(j, [(s, lun)])]
  | (j', m) :: rest =>
    if j' == j then (j, updInner s lun m) :: rest else (j', m) :: updSlot j s lun rest

/-- Nested lookup slotmap[jbod][slot]. -/
def slotLookup (m : SlotMap) (j : String) (s : Int) : Option String :=
  (lookupA j m).bind (lookupA s)

/-- Unpacking of line.split() minus its final token into (lun, jbod, slot),
with int() applied to the slot. -/
def parseSlotLine (line : String) : Except String (String × String × Int) :=
  match (pySplitWs line).dropLast with
  | [lun, jbod, slot] =>
    match pyInt slot with
    | some n => .ok (lun, jbod, n)
    | none => .error "ValueError: int"
  | _ => .error "ValueError: unpack"

/-- The line loop of get_slotmap. -/
def slotmapLines : List String → SlotMap → Except String SlotMap
  | [], m => .ok m
  | line :: rest, m =>
    if strContains line "Unmapped disks" then .ok m
    else if reSearchDevice line then
      match parseSlotLine line with
      | .ok (lun, jbod, s) => slotmapLines rest (updSlot jbod s lun m)
      | .error e => .error e
    else slotmapLines rest m

/-- get_slotmap applied to the captured output of show lun slotmap. -/
def get_slotmap (output : String) : Except String SlotMap :=
  slotmapLines (pySplitlines output) []

/-! ## Layout resolver (build_log, build_cache, build_vdev, lines 317-377)

Each builder resolves (jbod, slot) pairs through the slotmap — a missing
key is a KeyError, an exception main catches — and then checks each
resolved device with the classifier; a role violation logs an
"Invalid ... device" message naming the device, its vendor and its
product, and calls sys.exit(1), which no except-clause of main catches. -/

inductive BuildErr where
  | keyError
  | invalid (msg : String)
deriving Repr, DecidableEq

/-- slotmap[j][s] inside a builder list comprehension. -/
def resolveSlot (sm : SlotMap) (j : String) (s : Int) : Except BuildErr String :=
  match slotLookup sm j s with
  | none => .error .keyError
  | some lun => .ok lun

/-- Resolve one group of (jbod, slot) pairs in order. -/
def resolveGroup (sm : SlotMap) : List (String × Int) → Except BuildErr (List String)
  | [] => .ok []
  | (j, s) :: rest =>
    match resolveSlot sm j s with
    | .error e => .error e
    | .ok lun =>
      match resolveGroup sm rest with
      | .error e => .error e
      | .ok luns => .ok (lun :: luns)

/-- The string logged before sys.exit(1) on a role violation:
"Invalid KIND device D VENDOR PRODUCT " with a trailing space; the two
extra dict lookups it performs can themselves raise KeyError. -/
def invalidMsg (kind d : String) (h : Hddisco) : Except BuildErr String :=
  match lookupA d h with
  | none => .error .keyError
  | some attrs =>
    match lookupA "vendor" attrs, lookupA "product" attrs with
    | some ve, some pr =>
      .ok ("Invalid " ++ kind ++ " device " ++ d ++ " " ++ ve ++ " " ++ pr ++ " ")
    | _, _ => .error .keyError

/-- Log the violation message for d and exit: the error carried out. -/
def failInvalid (kind d : String) (h : Hddisco) : Except BuildErr Unit :=
  match invalidMsg kind d h with
  | .error e => .error e
  | .ok m => .error (.invalid m)

/-- Per-disk checks of build_vdev: reject a log or cache device. -/
def checkVdevDisks (h : Hddisco) : List String → Except BuildErr Unit
  | [] => .ok ()
  | d :: rest =>
    match is_log d h with
    | .error _ => .error .keyError
    | .ok bl =>
      if bl then failInvalid "vdev" d h
      else
        match is_cache d h with
        | .error _ => .error .keyError
        | .ok bc =>
          if bc then failInvalid "vdev" d h
          else checkVdevDisks h rest

/-- Per-disk checks of build_log: require a log device. -/
def checkLogDisks (h : Hddisco) : List String → Except BuildErr Unit
  | [] => .ok ()
  | d :: rest =>
    match is_log d h with
    | .error _ => .error .keyError
    | .ok bl =>
      if bl then checkLogDisks h rest
      else failInvalid "log" d h

/-- Per-disk checks of build_cache: require a cache device. -/
def checkCacheDisks (h : Hddisco) : List String → Except BuildErr Unit
  | [] => .ok ()
  | d :: rest =>
    match is_cache d h with
    | .error _ => .error .keyError
    | .ok bc =>
      if bc then checkCacheDisks h rest
      else failInvalid "cache" d h

/-- build_vdev: resolve each group, reject log and cache devices, keep the
groups in their original order. -/
def build_vdev (cfg : List (List (String × Int))) (sm : SlotMap) (h : Hddisco) :
    Except BuildErr (List (List String)) :=
  match cfg with
  | [] => .ok []
  | g :: rest =>
    match resolveGroup sm g with
    | .error e => .error e
    | .ok disks =>
      match checkVdevDisks h disks with
      | .error e => .error e
      | .ok _ =>
        match build_vdev rest sm h with
        | .error e => .error e
        | .ok tl => .ok (disks :: tl)

/-- build_log: resolve each group and require every disk to be a log
device. -/
def build_log (cfg : List (List (String × Int))) (sm : SlotMap) (h : Hddisco) :
    Except BuildErr (List (List String)) :=
  match cfg with
  | [] => .ok []
  | g :: rest =>
    match resolveGroup sm g with
    | .error e => .error e
    | .ok disks =>
      match checkLogDisks h disks with
      | .error e => .error e
      | .ok _ =>
        match build_log rest sm h with
        | .error e => .error e
        | .ok tl => .ok (disks :: tl)

/-- build_cache: resolve the single flat list and require every disk to be
a cache device. -/
def build_cache (cfg : List (String × Int)) (sm : SlotMap) (h : Hddisco) :
    Except BuildErr (List String) :=
  match resolveGroup sm cfg with
  | .error e => .error e
  | .ok disks =>
    match checkCacheDisks h disks with
    | .error e => .error e
    | .ok _ => .ok disks

/-! ## Pool command builder (zpool_create, lines 380-414)

The Python function assembles the command string and hands it to
execute_cmd; the embedding returns the assembled string.  cache and log
are None exactly when the pool specification lacks the key. -/

/-- The command string zpool_create assembles. -/
def zpool_create (name redundancy : String) (vdev : List (List String))
    (cache : Option (List String)) (log : Option (List (List String))) : String :=
  let mnt := "/volumes/" ++ name
  let cmd := "zpool create -f -m " ++ mnt ++
    " -o failmode=continue -o autoreplace=on -O compression=lz4 " ++ name
  let vdev_str := pyJoin " " (vdev.map (fun v => pyJoin " " [redundancy, pyJoin " " v]))
  let cmd := pyJoin " " [cmd, vdev_str]
  let cmd :=
    match log with
    | none => cmd
    | some lg =>
      pyJoin " " [cmd, "log", pyJoin " " (lg.map (fun l => pyJoin " " ["mirror", pyJoin " " l]))]
  match cache with
  | none => cmd
  | some ca => pyJoin " " [cmd, "cache", pyJoin " " ca]

/-! ## Per-pool loop of main (lines 473-500)

A pool dict: absent keys are none.  The loop body reads name and
redundancy inside a try whose handler only logs, then logs the Building
message — a NameError when the local name was never bound — then builds
log, cache and vdev inside a try that exits on any exception, and finally
calls zpool_create, reading the possibly unbound local redundancy. -/

structure Pool where
  name : Option String
  redundancy : Option String
  vdev : Option (List (List (String × Int)))
  cache : Option (List (String × Int))
  log : Option (List (List (String × Int)))

inductive StepOutcome where
  | created (cmd : String)
  | exited (code : Nat)
  | crashed (msg : String)
deriving Repr, DecidableEq

structure StepResult where
  logs : List (String × String)
  reachedBuild : Bool
  outcome : StepOutcome
deriving Repr, DecidableEq

/-- Field extraction of the loop body: new values of the locals name and
redundancy, plus what the except-clause logged.  A missing name raises
before redundancy is assigned; a missing redundancy leaves only
redundancy unassigned. -/
def extractVars (p : Pool) (nameVar redVar : Option String) :
    Option String × Option String × List (String × String) :=
  match p.name with
  | none => (nameVar, redVar,
      [("ERROR", "Invalid configuration file"), ("ERROR", "KeyError: name")])
  | some n =>
    match p.redundancy with
    | none => (some n, redVar,
        [("ERROR", "Invalid configuration file"), ("ERROR", "KeyError: redundancy")])
    | some r => (some n, some r, [])

/-- The log, cache and vdev builds of one loop body, in source order. -/
def buildLists (p : Pool) (sm : SlotMap) (h : Hddisco) :
    Except BuildErr (Option (List (List String)) × Option (List String) × List (List String)) :=
  match (match p.log with
         | some lc => (build_log lc sm h).map some
         | none => .ok none) with
  | .error e => .error e
  | .ok lg =>
    match (match p.cache with
           | some cc => (build_cache cc sm h).map some
           | none => .ok none) with
    | .error e => .error e
    | .ok ca =>
      match (match p.vdev with
             | some vc => build_vdev vc sm h
             | none => .error .keyError) with
      | .error e => .error e
      | .ok vd => .ok (lg, ca, vd)

/-- One iteration of the per-pool loop, given the values (possibly stale,
possibly unbound) of the locals name and redundancy. -/
def poolStep (nameVar redVar : Option String) (p : Pool) (sm : SlotMap) (h : Hddisco) :
    StepResult :=
  let (nv, rv, exLogs) := extractVars p nameVar redVar
  match nv with
  | none => { logs := exLogs, reachedBuild := false,
              outcome := .crashed "NameError: name is not defined" }
  | some n =>
    let logs1 := exLogs ++ [("INFO", "Building " ++ n ++ " device list")]
    match buildLists p sm h with
    | .error .keyError =>
        { logs := logs1 ++
            [("ERROR", "KeyError"),
             ("ERROR", "Invalid configuration file and/or slot placement"),
             ("ERROR", "Please review the configuration file AND slotmap")],
          reachedBuild := true, outcome := .exited 1 }
    | .error (.invalid m) =>
        { logs := logs1 ++ [("ERROR", m)], reachedBuild := true, outcome := .exited 1 }
    | .ok (lg, ca, vd) =>
      match rv with
      | none => { logs := logs1, reachedBuild := true,
                  outcome := .crashed "NameError: redundancy is not defined" }
      | some r =>
        { logs := logs1 ++ [("INFO", "Creating pool " ++ n)],
          reachedBuild := true,
          outcome := .created (zpool_create n r vd ca lg) }

/-! ## Theorems -/

/-- Claim C1: for a device present in hddisco with product and is_ssd
attributes, is_log is true exactly when product equals "ZeusRAM"
(independent of is_ssd), is_cache is true exactly when is_ssd equals
"yes" and the device is not a log device, and a device with is_ssd "no"
and a product other than "ZeusRAM" satisfies neither predicate. -/
theorem claim_C1_classifier (h : Hddisco) (d : String)
    (attrs : List (String × String)) (p ssd : String)
    (hd : lookupA d h = some attrs)
    (hp : lookupA "product" attrs = some p)
    (hs : lookupA "is_ssd" attrs = some ssd) :
    is_log d h = .ok (p == "ZeusRAM") ∧
    is_cache d h = .ok (ssd == "yes" && !(p == "ZeusRAM")) ∧
    (ssd = "no" → p ≠ "ZeusRAM" →
      is_log d h = .ok false ∧ is_cache d h = .ok false) := by
  have hl : is_log d h = .ok (p == "ZeusRAM") := by
    simp [is_log, hd, hp]
  have hc : is_cache d h = .ok (ssd == "yes" && !(p == "ZeusRAM")) := by
    simp only [is_cache, hd, hs, hl]
    by_cases hy : ssd = "yes" <;> simp [hy]
  refine ⟨hl, hc, fun hno hnz => ⟨?_, ?_⟩⟩
  · rw [hl]
    simp [hnz]
  · rw [hc, hno]
    simp [hnz]

theorem claim_C1_classifier_witness :
    is_log "c0t0d0" [("c0t0d0", [("product", "X25"), ("is_ssd", "no")])] = .ok false ∧
    is_cache "c0t0d0" [("c0t0d0", [("product", "X25"), ("is_ssd", "no")])] = .ok false :=
  (claim_C1_classifier [("c0t0d0", [("product", "X25"), ("is_ssd", "no")])] "c0t0d0"
    [("product", "X25"), ("is_ssd", "no")] "X25" "no" rfl rfl rfl).2.2 rfl (by decide)

/-- Claim C7: the pool command builder is deterministic — identical
(name, redundancy, vdev, cache, log) inputs yield byte-identical command
strings. -/
theorem claim_C7_deterministic (n n2 r r2 : String) (v v2 : List (List String))
    (c c2 : Option (List String)) (l l2 : Option (List (List String)))
    (hn : n = n2) (hr : r = r2) (hv : v = v2) (hc : c = c2) (hl : l = l2) :
    zpool_create n r v c l = zpool_create n2 r2 v2 c2 l2 := by
  rw [hn, hr, hv, hc, hl]

theorem claim_C7_deterministic_witness :
    zpool_create "p1" "mirror" [["a", "b"]] (some ["e"]) (some [["f"]]) =
      zpool_create "p1" "mirror" [["a", "b"]] (some ["e"]) (some [["f"]]) :=
  claim_C7_deterministic "p1" "p1" "mirror" "mirror" [["a", "b"]] [["a", "b"]]
    (some ["e"]) (some ["e"]) (some [["f"]]) (some [["f"]]) rfl rfl rfl rfl rfl

/-- Claim C3: with a non-empty list of log groups the builder appends a
log section whose every group carries the fixed "mirror" token (the
pool's own redundancy token appears nowhere in it), and with a non-empty
cache list it appends a cache section joining the cache devices with no
redundancy token. -/
theorem claim_C3_log_cache_sections (n r : String) (v : List (List String))
    (cs : List String) (lgs : List (List String)) (h1 : lgs ≠ []) (h2 : cs ≠ []) :
    zpool_create n r v none (some lgs) =
      pyJoin " " [zpool_create n r v none none, "log",
        pyJoin " " (lgs.map (fun l => "mirror " ++ pyJoin " " l))] ∧
    zpool_create n r v (some cs) none =
      pyJoin " " [zpool_create n r v none none, "cache", pyJoin " " cs] ∧
    zpool_create n r v (some cs) (some lgs) =
      pyJoin " " [pyJoin " " [zpool_create n r v none none, "log",
        pyJoin " " (lgs.map (fun l => "mirror " ++ pyJoin " " l))], "cache",
        pyJoin " " cs] :=
  ⟨rfl, rfl, rfl⟩

theorem claim_C3_log_cache_sections_witness :
    zpool_create "p1" "raidz2" [["a"]] (some ["e"]) (some [["f", "g"]]) =
      pyJoin " " [pyJoin " " [zpool_create "p1" "raidz2" [["a"]] none none, "log",
        pyJoin " " ([["f", "g"]].map (fun l => "mirror " ++ pyJoin " " l))], "cache",
        pyJoin " " ["e"]] :=
  (claim_C3_log_cache_sections "p1" "raidz2" [["a"]] ["e"] [["f", "g"]]
    (by decide) (by decide)).2.2

/-- Claim C9: a log or cache key whose value is the empty list still makes
the builder resolve it to an empty device list (not None), so the bare
section token is appended with no devices after it, unlike an absent key
which leaves the command without that section. -/
theorem claim_C9_empty_sections (n r : String) (v : List (List String))
    (sm : SlotMap) (h : Hddisco) :
    build_log [] sm h = .ok [] ∧
    build_cache [] sm h = .ok [] ∧
    zpool_create n r v none (some []) = zpool_create n r v none none ++ " log " ∧
    zpool_create n r v (some []) none = zpool_create n r v none none ++ " cache " ∧
    zpool_create n r v (some []) (some []) =
      zpool_create n r v none none ++ " log " ++ " cache " := by
  refine ⟨rfl, rfl, ?_, ?_, ?_⟩
  · show (zpool_create n r v none none ++ " ") ++ "log " = _
    rw [String.append_assoc]
    rfl
  · show (zpool_create n r v none none ++ " ") ++ "cache " = _
    rw [String.append_assoc]
    rfl
  · show (((zpool_create n r v none none ++ " ") ++ "log ") ++ " ") ++ "cache " = _
    rw [String.append_assoc, String.append_assoc, String.append_assoc,
      String.append_assoc]
    rfl

/-- Claim C5: the discovery parser opens a new section on a line starting
with '=' keyed by the remainder with '=' and whitespace stripped, skips
lines starting with 'P', records any other line as a stripped
(name, value) pair with the value's internal whitespace preserved, fails
on a line that does not split into exactly two fields, and parsing a
block of two one-attribute sections reproduces exactly those devices and
attributes. -/
theorem claim_C5_hddisco_steps (line : String) (ls : List String)
    (cur : Option String) (h : Hddisco) (dev k0 v0 : String) :
    (pyStartsWith1 line '=' = true →
      hddiscoLines (line :: ls) cur h =
        hddiscoLines ls (some (pyStrip (pyLstripEq line)))
          (setDevice (pyStrip (pyLstripEq line)) h)) ∧
    (pyStartsWith1 line '=' = false → pyStartsWith1 line 'P' = true →
      hddiscoLines (line :: ls) cur h = hddiscoLines ls cur h) ∧
    (pyStartsWith1 line '=' = false → pyStartsWith1 line 'P' = false →
      pySplit1 line = [k0, v0] →
      hddiscoLines (line :: ls) (some dev) h =
        hddiscoLines ls (some dev) (addAttr dev (pyStrip k0) (pyStrip v0) h)) ∧
    (pyStartsWith1 line '=' = false → pyStartsWith1 line 'P' = false →
      (pySplit1 line).length ≠ 2 →
      hddiscoLines (line :: ls) cur h = .error "ValueError: unpack") ∧
    hddiscoLines ["=dva", "vendor acme", "=dvb", "product ZeusRAM"] none [] =
      .ok [("dva", [("vendor", "acme")]), ("dvb", [("product", "ZeusRAM")])] := by
  refine ⟨fun h1 => ?_, fun h1 h2 => ?_, fun h1 h2 h3 => ?_, fun h1 h2 h3 => ?_, rfl⟩
  · simp [hddiscoLines, h1]
  · simp [hddiscoLines, h1, h2]
  · simp [hddiscoLines, h1, h2, h3]
  · simp only [hddiscoLines, h1, h2, Bool.false_eq_true, if_false]
    rcases hsp : pySplit1 line with _ | ⟨a, _ | ⟨b, _ | ⟨c, t⟩⟩⟩ <;>
      simp [hsp] at h3 ⊢

theorem claim_C5_hddisco_steps_witness :
    hddiscoLines ["vendor  acme corp"] (some "dva") [("dva", [])] =
      hddiscoLines [] (some "dva")
        (addAttr "dva" (pyStrip "vendor") (pyStrip "acme corp") [("dva", [])]) :=
  (claim_C5_hddisco_steps "vendor  acme corp" [] (some "dva") [("dva", [])]
    "dva" "vendor" "acme corp").2.2.1 (by decide) (by decide) (by decide)

/-- Helper for claim C10: a line whose first character is 'P' does not
start with '='. -/
theorem startsP_not_eq (l : String) :
    pyStartsWith1 l 'P' = true → pyStartsWith1 l '=' = false := by
  unfold pyStartsWith1
  cases l.data with
  | nil => intro h; simp at h
  | cons c cs =>
    intro h
    have hc : c = 'P' := by simpa using h
    simp [hc]

/-- Claim C10: an attribute-shaped line (neither a section header nor a
path line, splitting into exactly two fields) that occurs before any '='
line makes get_hddisco fail with the unbound-variable error for the local
current, rather than return a mapping. -/
theorem claim_C10_unbound_current (pre rest : List String)
    (attrLine k0 v0 : String)
    (hpre : ∀ l ∈ pre, pyStartsWith1 l 'P' = true)
    (h1 : pyStartsWith1 attrLine '=' = false)
    (h2 : pyStartsWith1 attrLine 'P' = false)
    (h3 : pySplit1 attrLine = [k0, v0]) :
    hddiscoLines (pre ++ attrLine :: rest) none [] =
      .error "NameError: current is not defined" := by
  induction pre with
  | nil =>
    simp [hddiscoLines, h1, h2, h3]
  | cons l ls ih =>
    have hP := hpre l (List.mem_cons_self l ls)
    have hEq := startsP_not_eq l hP

    rw [List.cons_append]
    simp only [hddiscoLines, hEq, hP, Bool.false_eq_true, if_false, if_true]
    exact ih (fun x hx => hpre x (List.mem_cons_of_mem l hx))

theorem claim_C10_unbound_current_witness :
    hddiscoLines ["P 1", "vendor acme", "=dva"] none [] =
      .error "NameError: current is not defined" :=
  claim_C10_unbound_current ["P 1"] ["=dva"] "vendor acme" "vendor" "acme"
    (by intro l hl; rw [List.mem_singleton] at hl; subst hl; decide)
    (by decide) (by decide) (by decide)

/-- Claim C6: the slot-map parser stops at the first line containing the
literal "Unmapped disks": the result over any line list equals the result
over the prefix strictly before the first marker line, so no line at or
after the marker contributes and every line before it is processed. -/
theorem claim_C6_marker_stops (lines : List String) (m : SlotMap) :
    slotmapLines lines m =
      slotmapLines (lines.takeWhile (fun l => !strContains l "Unmapped disks")) m := by
  induction lines generalizing m with
  | nil => rfl
  | cons l ls ih =>
    by_cases hm : strContains l "Unmapped disks" = true
    · rw [List.takeWhile_cons]
      simp [slotmapLines, hm]
    · have hm' : strContains l "Unmapped disks" = false := by
        simpa using hm
      rw [List.takeWhile_cons]
      simp only [hm', Bool.not_false, if_true]
      by_cases hr : reSearchDevice l = true
      · simp only [slotmapLines, hm', hr, Bool.false_eq_true, if_false, if_true]
        rcases hp : parseSlotLine l with e | ⟨lun, jbod, s⟩
        · rfl
        · exact ih (updSlot jbod s lun m)
      · have hr' : reSearchDevice l = false := by simpa using hr
        simp only [slotmapLines, hm', hr', Bool.false_eq_true, if_false]
        exact ih m

/-! ### Slot-map bookkeeping lemmas -/

/-- A line that writes the (jbod, slot) key of the slot map: it is not a
stop marker, it matches the device pattern, and its unpacking parses to
that key. -/
def WritesKey (l : String) (j : String) (s : Int) : Prop :=
  strContains l "Unmapped disks" = false ∧ reSearchDevice l = true ∧
    ∃ lun, parseSlotLine l = Except.ok (lun, j, s)

theorem lookupA_cons_self {α β : Type} [BEq α] [LawfulBEq α] (k : α) (b : β)
    (rest : List (α × β)) :
    lookupA k ((k, b) :: rest) = some b := by
  simp [lookupA, List.find?]

theorem lookupA_cons_ne {α β : Type} [BEq α] [LawfulBEq α] (k0 k : α) (b : β)
    (rest : List (α × β)) (hne : k0 ≠ k) :
    lookupA k ((k0, b) :: rest) = lookupA k rest := by
  have hb : (k0 == k) = false := by simpa using hne
  simp [lookupA, List.find?, hb]

theorem lookupA_updInner_self (s : Int) (lun : String)
    (inner : List (Int × String)) :
    lookupA s (updInner s lun inner) = some lun := by
  induction inner with
  | nil => simp [updInner, lookupA_cons_self]
  | cons p rest ih =>
    obtain ⟨s1, l1⟩ := p
    by_cases hs : s1 = s
    · subst hs
      simp [updInner, lookupA_cons_self]
    · have hb : (s1 == s) = false := by simpa using hs
      simp only [updInner, hb, Bool.false_eq_true, if_false]
      rw [lookupA_cons_ne s1 s l1 _ hs]
      exact ih

theorem lookupA_updInner_ne (s0 s : Int) (lun : String)
    (inner : List (Int × String)) (hne : s0 ≠ s) :
    lookupA s (updInner s0 lun inner) = lookupA s inner := by
  induction inner with
  | nil => simp [updInner, lookupA_cons_ne s0 s lun [] hne]
  | cons p rest ih =>
    obtain ⟨s1, l1⟩ := p
    by_cases hs : s1 = s0
    · subst hs
      simp only [updInner, beq_self_eq_true, if_true]
      rw [lookupA_cons_ne s1 s lun _ hne, lookupA_cons_ne s1 s l1 _ hne]
    · have hb : (s1 == s0) = false := by simpa using hs
      simp only [updInner, hb, Bool.false_eq_true, if_false]
      by_cases hs1 : s1 = s
      · subst hs1
        rw [lookupA_cons_self, lookupA_cons_self]
      · rw [lookupA_cons_ne s1 s l1 _ hs1, lookupA_cons_ne s1 s l1 _ hs1]
        exact ih

theorem slotLookup_updSlot_self (m : SlotMap) (j : String) (s : Int)
    (lun : String) :
    slotLookup (updSlot j s lun m) j s = some lun := by
  induction m with
  | nil =>
    simp [updSlot, slotLookup, lookupA_cons_self, updInner]
  | cons p rest ih =>
    obtain ⟨j0, inner⟩ := p
    by_cases hj : j0 = j
    · subst hj
      simp only [updSlot, beq_self_eq_true, if_true, slotLookup]
      rw [lookupA_cons_self]
      simpa using lookupA_updInner_self s lun inner
    · have hb : (j0 == j) = false := by simpa using hj
      simp only [updSlot, hb, Bool.false_eq_true, if_false, slotLookup]
      rw [lookupA_cons_ne j0 j inner _ hj]
      exact ih

theorem slotLookup_updSlot_other (m : SlotMap) (j' j : String) (s' s : Int)
    (lun : String) (hne : ¬(j' = j ∧ s' = s)) :
    slotLookup (updSlot j' s' lun m) j s = slotLookup m j s := by
  induction m with
  | nil =>
    by_cases hj : j' = j
    · subst hj
      have hs : s' ≠ s := fun h => hne ⟨rfl, h⟩
      simp only [updSlot, slotLookup]
      rw [lookupA_cons_self]
      simpa using lookupA_cons_ne s' s lun [] hs
    · simp only [updSlot, slotLookup]
      rw [lookupA_cons_ne j' j _ [] hj]
  | cons p rest ih =>
    obtain ⟨j0, inner⟩ := p
    by_cases hj0 : j0 = j'
    · subst hj0
      simp only [updSlot, beq_self_eq_true, if_true, slotLookup]
      by_cases hj : j0 = j
      · subst hj
        have hs : s' ≠ s := fun h => hne ⟨rfl, h⟩
        rw [lookupA_cons_self, lookupA_cons_self]
        simpa using lookupA_updInner_ne s' s lun inner hs
      · rw [lookupA_cons_ne j0 j _ _ hj, lookupA_cons_ne j0 j _ _ hj]
    · have hb0 : (j0 == j') = false := by simpa using hj0
      simp only [updSlot, hb0, Bool.false_eq_true, if_false, slotLookup]
      by_cases hj : j0 = j
      · subst hj
        rw [lookupA_cons_self, lookupA_cons_self]
      · rw [lookupA_cons_ne j0 j _ _ hj, lookupA_cons_ne j0 j _ _ hj]
        exact ih

theorem slotmapLines_append (pre rest : List String) (m m₁ : SlotMap)
    (hnb : ∀ l ∈ pre, strContains l "Unmapped disks" = false)
    (hok : slotmapLines pre m = Except.ok m₁) :
    slotmapLines (pre ++ rest) m = slotmapLines rest m₁ := by
  induction pre generalizing m with
  | nil =>
    simp only [slotmapLines, Except.ok.injEq] at hok
    subst hok
    rfl
  | cons l ls ih =>
    have hm := hnb l (List.mem_cons_self l ls)
    have hnb' : ∀ x ∈ ls, strContains x "Unmapped disks" = false :=
      fun x hx => hnb x (List.mem_cons_of_mem l hx)
    rw [List.cons_append]
    by_cases hr : reSearchDevice l = true
    · rcases hp : parseSlotLine l with e | ⟨lun, jbod, s⟩
      · simp [slotmapLines, hm, hr, hp] at hok
      · simp only [slotmapLines, hm, hr, hp, Bool.false_eq_true, if_false,
          if_true] at hok ⊢
        exact ih _ hnb' hok
    · have hr' : reSearchDevice l = false := by simpa using hr
      simp only [slotmapLines, hm, hr', Bool.false_eq_true, if_false] at hok ⊢
      exact ih _ hnb' hok

theorem slotmapLines_preserve (lines : List String) (m mf : SlotMap)
    (j : String) (s : Int)
    (hno : ∀ l ∈ lines, ¬ WritesKey l j s)
    (hok : slotmapLines lines m = Except.ok mf) :
    slotLookup mf j s = slotLookup m j s := by
  induction lines generalizing m with
  | nil =>
    simp only [slotmapLines, Except.ok.injEq] at hok
    subst hok
    rfl
  | cons l ls ih =>
    have hno' : ∀ x ∈ ls, ¬ WritesKey x j s :=
      fun x hx => hno x (List.mem_cons_of_mem l hx)
    by_cases hm : strContains l "Unmapped disks" = true
    · simp only [slotmapLines, hm, if_true, Except.ok.injEq] at hok
      subst hok
      rfl
    · have hm' : strContains l "Unmapped disks" = false := by simpa using hm
      by_cases hr : reSearchDevice l = true
      · rcases hp : parseSlotLine l with e | ⟨lun, j', s'⟩
        · simp [slotmapLines, hm', hr, hp] at hok
        · simp only [slotmapLines, hm', hr, hp, Bool.false_eq_true, if_false,
            if_true] at hok
          have hne : ¬(j' = j ∧ s' = s) := by
            rintro ⟨hj, hs⟩
            exact hno l (List.mem_cons_self l ls)
              ⟨hm', hr, lun, by rw [hp, hj, hs]⟩
          rw [ih _ hno' hok, slotLookup_updSlot_other _ _ _ _ _ _ hne]
      · have hr' : reSearchDevice l = false := by simpa using hr
        simp only [slotmapLines, hm', hr', Bool.false_eq_true, if_false] at hok
        exact ih _ hno' hok

/-- Claim C2: a line of the slot-map output that matches the device
pattern and is reached before the stop marker has its tokens recorded:
first token as device id, filed under the enclosure and integer slot
taken from the last-but-one and last tokens before the trailing
annotation token — provided no later processed line rewrites that
(enclosure, slot) key and the whole parse succeeds. -/
theorem claim_C2_slotmap_records (pre post : List String)
    (line lun jbod slotTok ann : String) (s : Int) (m₁ mf : SlotMap)
    (hprenb : ∀ l ∈ pre, strContains l "Unmapped disks" = false)
    (hpre : slotmapLines pre [] = Except.ok m₁)
    (hnb : strContains line "Unmapped disks" = false)
    (hre : reSearchDevice line = true)
    (hsplit : pySplitWs line = [lun, jbod, slotTok, ann])
    (hint : pyInt slotTok = some s)
    (hpost : ∀ l ∈ post, ¬ WritesKey l jbod s)
    (hok : slotmapLines (pre ++ line :: post) [] = Except.ok mf) :
    slotLookup mf jbod s = some lun := by
  have hparse : parseSlotLine line = Except.ok (lun, jbod, s) := by
    simp [parseSlotLine, hsplit, hint, List.dropLast]
  rw [slotmapLines_append pre (line :: post) [] m₁ hprenb hpre] at hok
  simp only [slotmapLines, hnb, hre, hparse, Bool.false_eq_true, if_false,
    if_true] at hok
  rw [slotmapLines_preserve post _ mf jbod s hpost hok,
    slotLookup_updSlot_self]

theorem claim_C2_slotmap_records_witness :
    slotLookup [("j1", [((3 : Int), "c0t1d0")])] "j1" 3 = some "c0t1d0" :=
  claim_C2_slotmap_records [] [] "c0t1d0 j1 3 ok" "c0t1d0" "j1" "3" "ok" 3
    [] [("j1", [((3 : Int), "c0t1d0")])]
    (by simp) rfl (by decide) (by decide) (by decide) (by decide) (by simp) rfl

/-! ### Vdev validation lemmas -/

/-- A resolved device the vdev check must reject: classified as a log or
a cache device. -/
def Offender (h : Hddisco) (d : String) : Prop :=
  is_log d h = Except.ok true ∨ is_cache d h = Except.ok true

/-- The device is present in hddisco with vendor, product and is_ssd
attributes, so classification and the error message lookups succeed. -/
def HasAttrs (h : Hddisco) (d : String) : Prop :=
  ∃ attrs ve pr ssd, lookupA d h = some attrs ∧
    lookupA "vendor" attrs = some ve ∧
    lookupA "product" attrs = some pr ∧
    lookupA "is_ssd" attrs = some ssd

theorem checkVdevDisks_ok (h : Hddisco) (disks : List String)
    (hclean : ∀ d ∈ disks,
      is_log d h = Except.ok false ∧ is_cache d h = Except.ok false) :
    checkVdevDisks h disks = .ok () := by
  induction disks with
  | nil => rfl
  | cons d ds ih =>
    obtain ⟨hl, hc⟩ := hclean d (List.mem_cons_self d ds)
    simp only [checkVdevDisks, hl, hc, Bool.false_eq_true, if_false]
    exact ih (fun x hx => hclean x (List.mem_cons_of_mem d hx))

theorem checkVdevDisks_fails (h : Hddisco) (disks : List String)
    (hattr : ∀ d ∈ disks, HasAttrs h d)
    (hbad : ∃ d ∈ disks, Offender h d) :
    ∃ d ve pr, d ∈ disks ∧ Offender h d ∧
      (∃ attrs, lookupA d h = some attrs ∧ lookupA "vendor" attrs = some ve ∧
        lookupA "product" attrs = some pr) ∧
      checkVdevDisks h disks = .error (.invalid
        ("Invalid vdev device " ++ d ++ " " ++ ve ++ " " ++ pr ++ " ")) := by
  induction disks with
  | nil =>
    obtain ⟨d, hd, -⟩ := hbad
    exact absurd hd (List.not_mem_nil d)
  | cons d ds ih =>
    obtain ⟨attrs, ve, pr, ssd, hA, hV, hP, hS⟩ :=
      hattr d (List.mem_cons_self d ds)
    have hl : is_log d h = Except.ok (pr == "ZeusRAM") := by
      simp [is_log, hA, hP]
    have hmsg : invalidMsg "vdev" d h = Except.ok
        ("Invalid vdev device " ++ d ++ " " ++ ve ++ " " ++ pr ++ " ") := by
      simp [invalidMsg, hA, hV, hP]
    by_cases hz : (pr == "ZeusRAM") = true
    · refine ⟨d, ve, pr, List.mem_cons_self d ds, Or.inl (by rw [hl, hz]),
        ⟨attrs, hA, hV, hP⟩, ?_⟩
      simp [checkVdevDisks, hl, hz, failInvalid, hmsg]
    · have hz' : (pr == "ZeusRAM") = false := by simpa using hz
      have hc : is_cache d h = Except.ok (ssd == "yes") := by
        by_cases hy : (ssd == "yes") = true <;>
          simp [is_cache, hA, hS, hy, hl, hz']
      by_cases hy : (ssd == "yes") = true
      · refine ⟨d, ve, pr, List.mem_cons_self d ds, Or.inr (by rw [hc, hy]),
          ⟨attrs, hA, hV, hP⟩, ?_⟩
        simp [checkVdevDisks, hl, hz', hc, hy, failInvalid, hmsg]
      · have hy' : (ssd == "yes") = false := by simpa using hy
        have hbad' : ∃ x ∈ ds, Offender h x := by
          obtain ⟨d2, hd2, ho⟩ := hbad
          rcases List.mem_cons.mp hd2 with rfl | htl
          · rcases ho with h1 | h1
            · rw [hl, hz'] at h1
              simp at h1
            · rw [hc, hy'] at h1
              simp at h1
          · exact ⟨d2, htl, ho⟩
        obtain ⟨d2, ve2, pr2, hmem, ho, hlk, heq⟩ :=
          ih (fun x hx => hattr x (List.mem_cons_of_mem d hx)) hbad'
        refine ⟨d2, ve2, pr2, List.mem_cons_of_mem d hmem, ho, hlk, ?_⟩
        simp only [checkVdevDisks, hl, hz', hc, hy', Bool.false_eq_true,
          if_false]
        exact heq

theorem build_vdev_all_ok (sm : SlotMap) (h : Hddisco)
    (cfg : List (List (String × Int))) (rcfg : List (List String))
    (hres : List.Forall₂ (fun g rg => resolveGroup sm g = Except.ok rg) cfg rcfg)
    (hclean : ∀ d ∈ rcfg.flatten,
      is_log d h = Except.ok false ∧ is_cache d h = Except.ok false) :
    build_vdev cfg sm h = Except.ok rcfg := by
  induction hres with
  | nil => rfl
  | @cons g rg cfgT rcfgT hg hrest ih =>
    have hcheck : checkVdevDisks h rg = .ok () :=
      checkVdevDisks_ok h rg (fun d hd =>
        hclean d (by
          rw [List.flatten_cons]
          exact List.mem_append.mpr (Or.inl hd)))
    have hclean' : ∀ d ∈ rcfgT.flatten,
        is_log d h = Except.ok false ∧ is_cache d h = Except.ok false :=
      fun d hd => hclean d (by
        rw [List.flatten_cons]
        exact List.mem_append.mpr (Or.inr hd))
    simp only [build_vdev, hg, hcheck, ih hclean']

theorem build_vdev_fails (sm : SlotMap) (h : Hddisco)
    (cfg : List (List (String × Int))) (rcfg : List (List String))
    (hres : List.Forall₂ (fun g rg => resolveGroup sm g = Except.ok rg) cfg rcfg)
    (hattr : ∀ d ∈ rcfg.flatten, HasAttrs h d)
    (hbad : ∃ d ∈ rcfg.flatten, Offender h d) :
    ∃ d ve pr, d ∈ rcfg.flatten ∧ Offender h d ∧
      (∃ attrs, lookupA d h = some attrs ∧ lookupA "vendor" attrs = some ve ∧
        lookupA "product" attrs = some pr) ∧
      build_vdev cfg sm h = .error (.invalid
        ("Invalid vdev device " ++ d ++ " " ++ ve ++ " " ++ pr ++ " ")) := by
  induction hres with
  | nil =>
    obtain ⟨d, hd, -⟩ := hbad
    simp at hd
  | @cons g rg cfgT rcfgT hg hrest ih =>
    have memL : ∀ x ∈ rg, x ∈ (rg :: rcfgT).flatten := fun x hx => by
      rw [List.flatten_cons]
      exact List.mem_append.mpr (Or.inl hx)
    have memR : ∀ x ∈ rcfgT.flatten, x ∈ (rg :: rcfgT).flatten := fun x hx => by
      rw [List.flatten_cons]
      exact List.mem_append.mpr (Or.inr hx)
    by_cases hhead : ∃ x ∈ rg, Offender h x
    · obtain ⟨d, ve, pr, hmem, ho, hlk, hchk⟩ :=
        checkVdevDisks_fails h rg (fun x hx => hattr x (memL x hx)) hhead
      refine ⟨d, ve, pr, memL d hmem, ho, hlk, ?_⟩
      simp only [build_vdev, hg, hchk]
    · have hcl : ∀ x ∈ rg,
          is_log x h = Except.ok false ∧ is_cache x h = Except.ok false := by
        intro x hx
        obtain ⟨attrs, ve, pr, ssd, hA, hV, hP, hS⟩ := hattr x (memL x hx)
        have hl : is_log x h = Except.ok (pr == "ZeusRAM") := by
          simp [is_log, hA, hP]
        have hz' : (pr == "ZeusRAM") = false := by
          by_contra hzc
          have hzt : (pr == "ZeusRAM") = true := by simpa using hzc
          exact hhead ⟨x, hx, Or.inl (by rw [hl, hzt])⟩
        have hc : is_cache x h = Except.ok (ssd == "yes") := by
          by_cases hy : (ssd == "yes") = true <;>
            simp [is_cache, hA, hS, hy, hl, hz']
        have hy' : (ssd == "yes") = false := by
          by_contra hyc
          have hyt : (ssd == "yes") = true := by simpa using hyc
          exact hhead ⟨x, hx, Or.inr (by rw [hc, hyt])⟩
        exact ⟨by rw [hl, hz'], by rw [hc, hy']⟩
      have hcheck := checkVdevDisks_ok h rg hcl
      have hbad' : ∃ x ∈ rcfgT.flatten, Offender h x := by
        obtain ⟨d2, hd2, ho⟩ := hbad
        have : d2 ∈ rg ∨ d2 ∈ rcfgT.flatten := by
          rw [List.flatten_cons] at hd2
          exact List.mem_append.mp hd2
        rcases this with h1 | h1
        · exact absurd ⟨d2, h1, ho⟩ hhead
        · exact ⟨d2, h1, ho⟩
      obtain ⟨d2, ve2, pr2, hmem, ho, hlk, heq⟩ :=
        ih (fun x hx => hattr x (memR x hx)) hbad'
      refine ⟨d2, ve2, pr2, memR d2 hmem, ho, hlk, ?_⟩
      simp only [build_vdev, hg, hcheck, heq]

theorem poolStep_vdev_error (nv rv : Option String) (n r : String)
    (cfg : List (List (String × Int))) (sm : SlotMap) (h : Hddisco)
    (e : BuildErr) (he : build_vdev cfg sm h = Except.error e) :
    (poolStep nv rv ⟨some n, some r, some cfg, none, none⟩ sm h).outcome =
      .exited 1 := by
  have hb : buildLists ⟨some n, some r, some cfg, none, none⟩ sm h =
      Except.error e := by
    simp [buildLists, he]
  simp only [poolStep, extractVars, hb]
  cases e <;> rfl

/-- Claim C4: when every (enclosure, slot) pair of the vdev groups
resolves, and some resolved device is classified as a log or cache
device, build_vdev fails with the "Invalid vdev device" message naming an
offending device with its vendor and product, and the per-pool step exits
with status 1 before any creation command is assembled; when every
resolved device is neither, build_vdev returns the resolved group lists
in their original order. -/
theorem claim_C4_vdev_validation (sm : SlotMap) (h : Hddisco)
    (cfg : List (List (String × Int))) (rcfg : List (List String))
    (hres : List.Forall₂ (fun g rg => resolveGroup sm g = Except.ok rg) cfg rcfg) :
    ((∀ d ∈ rcfg.flatten, HasAttrs h d) → (∃ d ∈ rcfg.flatten, Offender h d) →
      ∃ d ve pr, d ∈ rcfg.flatten ∧ Offender h d ∧
        (∃ attrs, lookupA d h = some attrs ∧
          lookupA "vendor" attrs = some ve ∧
          lookupA "product" attrs = some pr) ∧
        build_vdev cfg sm h = .error (.invalid
          ("Invalid vdev device " ++ d ++ " " ++ ve ++ " " ++ pr ++ " ")) ∧
        ∀ nv rv n r,
          (poolStep nv rv ⟨some n, some r, some cfg, none, none⟩ sm h).outcome =
            StepOutcome.exited 1) ∧
    ((∀ d ∈ rcfg.flatten,
        is_log d h = Except.ok false ∧ is_cache d h = Except.ok false) →
      build_vdev cfg sm h = Except.ok rcfg) := by
  constructor
  · intro hattr hbad
    obtain ⟨d, ve, pr, hmem, ho, hlk, heq⟩ :=
      build_vdev_fails sm h cfg rcfg hres hattr hbad
    exact ⟨d, ve, pr, hmem, ho, hlk, heq,
      fun nv rv n r => poolStep_vdev_error nv rv n r cfg sm h _ heq⟩
  · exact build_vdev_all_ok sm h cfg rcfg hres

/-- Sample slot map for the C4 witness. -/
def smW : SlotMap := [("j1", [((1 : Int), "dz")])]

/-- Sample discovery table for the C4 witness: dz is a ZeusRAM device. -/
def hdW : Hddisco :=
  [("dz", [("vendor", "STEC"), ("product", "ZeusRAM"), ("is_ssd", "no")])]

/-- Sample vdev config for the C4 witness. -/
def cfgW : List (List (String × Int)) := [[("j1", (1 : Int))]]

theorem claim_C4_vdev_validation_witness :
    ∃ d ve pr, d ∈ [["dz"]].flatten ∧ Offender hdW d ∧
      (∃ attrs, lookupA d hdW = some attrs ∧
        lookupA "vendor" attrs = some ve ∧
        lookupA "product" attrs = some pr) ∧
      build_vdev cfgW smW hdW = .error (.invalid
        ("Invalid vdev device " ++ d ++ " " ++ ve ++ " " ++ pr ++ " ")) ∧
      ∀ nv rv n r,
        (poolStep nv rv ⟨some n, some r, some cfgW, none, none⟩ smW hdW).outcome =
          StepOutcome.exited 1 :=
  (claim_C4_vdev_validation smW hdW cfgW [["dz"]]
      (List.Forall₂.cons rfl List.Forall₂.nil)).1
    (by
      intro d hd
      simp at hd
      subst hd
      exact ⟨[("vendor", "STEC"), ("product", "ZeusRAM"), ("is_ssd", "no")],
        "STEC", "ZeusRAM", "no", rfl, rfl, rfl, rfl⟩)
    ⟨"dz", by simp, Or.inl rfl⟩

/-- Claim C8 counterexample: the first pool of a run missing its name
field logs the configuration error, but the loop body then crashes with a
NameError at the progress-logging statement, before device-list building
is reached — the run does terminate, and control does not fall through to
device-list building. -/
theorem claim_C8_counterexample :
    (poolStep none none ⟨none, some "mirror", some [], none, none⟩ [] []).reachedBuild
        = false ∧
    (poolStep none none ⟨none, some "mirror", some [], none, none⟩ [] []).outcome =
      StepOutcome.crashed "NameError: name is not defined" ∧
    ("ERROR", "Invalid configuration file") ∈
      (poolStep none none ⟨none, some "mirror", some [], none, none⟩ [] []).logs :=
  ⟨rfl, rfl, by simp [poolStep, extractVars]⟩

/-- Claim C8 as amended: a pool specification missing name or redundancy
logs an error without any exit at the field-extraction step, and whenever
the loop's name variable ends up bound (the pool has a name, or a
previous iteration bound one) control falls through to device-list
building for that pool. -/
theorem claim_C8_missing_field_continues (nv rv : Option String) (p : Pool)
    (sm : SlotMap) (h : Hddisco) (n : String)
    (hmiss : p.name = none ∨ p.redundancy = none)
    (hbound : (extractVars p nv rv).1 = some n) :
    ("ERROR", "Invalid configuration file") ∈ (poolStep nv rv p sm h).logs ∧
    (poolStep nv rv p sm h).reachedBuild = true := by
  rcases hE : extractVars p nv rv with ⟨nv2, rv2, exLogs⟩
  rw [hE] at hbound
  simp only at hbound
  subst hbound
  have hmem : ("ERROR", "Invalid configuration file") ∈ exLogs := by
    rcases hp : p.name with _ | pn
    · simp only [extractVars, hp, Prod.mk.injEq] at hE
      rw [← hE.2.2]
      simp
    · rcases hq : p.redundancy with _ | pr2
      · simp only [extractVars, hp, hq, Prod.mk.injEq] at hE
        rw [← hE.2.2]
        simp
      · rcases hmiss with hm | hm
        · rw [hp] at hm
          exact absurd hm (by simp)
        · rw [hq] at hm
          exact absurd hm (by simp)
  constructor
  · simp only [poolStep, hE]
    rcases hb : buildLists p sm h with e | ⟨lg, ca, vd⟩
    · cases e <;> simp [hmem]
    · cases rv2 <;> simp [hmem]
  · simp only [poolStep, hE]
    rcases hb : buildLists p sm h with e | ⟨lg, ca, vd⟩
    · cases e <;> rfl
    · cases rv2 <;> rfl

theorem claim_C8_missing_field_continues_witness :
    ("ERROR", "Invalid configuration file") ∈
      (poolStep none none ⟨some "p1", none, some [], none, none⟩ [] []).logs ∧
    (poolStep none none ⟨some "p1", none, some [], none, none⟩ [] []).reachedBuild
      = true :=
  claim_C8_missing_field_continues none none
    ⟨some "p1", none, some [], none, none⟩ [] [] "p1" (Or.inr rfl) rfl

end ZC
